import Mathlib

/-!
# Verification of the exodus-gw publish core

Shallow embedding, in Lean 4, of the publish/link-resolution/autoindex core of
the exodus-gw repository:

* `src/exodus_gw/models/publish.py` — the ORM model of publishes and items and
  the link-resolution routine `Publish.resolve_links`;
* `src/exodus_gw/schemas.py` — input validation of items (`ItemBase.validate_item`)
  together with the path normalization helper `normalize_path`;
* `src/exodus_gw/worker/autoindex.py` — the autoindex enricher
  (`AutoindexEnricher`, `PublishContentFetcher`, `object_key`);
* `src/exodus_gw/deps.py` — the pooled storage-client dependency
  (`get_s3_client`, `queue_for_profile`).

The database session is modelled as a list of item rows; SQLAlchemy queries
become list filters, in-place mutation of ORM rows becomes positional update of
the list, and a raised exception becomes an error value carried beside the
mutated-so-far state (so that partial mutation made before the raise stays
observable, exactly as it is observable on the live session objects).
-/

/-- One row of the `items` table (`class Item` in `models/publish.py`).
`object_key`, `content_type` and `link_to` are nullable columns, hence
`Option`.  The UUID-valued columns `id`/`publish_id` are modelled as `Nat`
(only equality of UUIDs is ever used by the embedded code). -/
structure DbItem where
  web_uri : String
  object_key : Option String
  content_type : Option String
  link_to : Option String
  publish_id : Nat
deriving Repr, DecidableEq

/-- Python truthiness of an optional string: `None` and the empty string are
falsy.  Used to model the check `if not ln_item.object_key` in
`Publish.resolve_links`. -/
def keyFalsy : Option String → Bool
  | none => true
  | some s => s == ""

/-- The list comprehension `[item.link_to for item in ln_items]` over the
query `db.query(Item).filter(Item.link_to != None)`: the `link_to` values of
all rows whose `link_to` column is non-null, in session order. -/
def lnItemPaths (db : List DbItem) : List String :=
  (db.filter (fun i => i.link_to ≠ none)).filterMap (fun i => i.link_to)

/-- The dictionary built by `Publish.resolve_links` from
`db.query(match).filter(Item.web_uri.in_(ln_item_paths))`, read at one key:
the dict comprehension keeps, for each `web_uri`, the `object_key` of the
*last* matching row, and `matches.get(uri)` yields Python `None` when the key
is absent.  Both the absent-key `None` and a null `object_key` column land in
`none` here, exactly as both are `None` to the Python caller. -/
def matchesGet (db : List DbItem) (paths : List String) (uri : String) : Option String :=
  match (db.filter (fun i => i.web_uri == uri && paths.contains i.web_uri)).getLast? with
  | none => none
  | some row => row.object_key

/-- The payload of the `HTTPException` raised by `Publish.resolve_links`:
its detail string interpolates the offending item's `web_uri` and `link_to`. -/
structure ResolveErr where
  web_uri : String
  link_to : Option String
deriving Repr, DecidableEq

/-- The detail string of the raised `HTTPException` (status 400). -/
def resolveErrDetail (e : ResolveErr) : String :=
  "Unable to resolve item object_key:\n\tURI: " ++ e.web_uri
    ++ "\n\tLink: " ++ (e.link_to.getD "")

/-- The `for ln_item in ln_items` loop of `Publish.resolve_links`.  The loop
runs over the link rows of the session in order, assigns
`ln_item.object_key = matches.get(ln_item.link_to)` to each, and raises on the
first falsy assignment; rows after the raise are left untouched.  Iterating
all rows of the session and acting only on those with `link_to` non-null is
the same traversal, since the query filter preserves session order. -/
def resolveLoop (get : String → Option String) : List DbItem → List DbItem × Option ResolveErr
  | [] => ([], none)
  | i :: rest =>
    match i.link_to with
    | none =>
      let r := resolveLoop get rest
      (i :: r.1, r.2)
    | some t =>
      let newKey := get t
      let i' := { i with object_key := newKey }
      if keyFalsy newKey then
        (i' :: rest, some ⟨i.web_uri, i.link_to⟩)
      else
        let r := resolveLoop get rest
        (i' :: r.1, r.2)

/-- `Publish.resolve_links` (`models/publish.py`).  Note that both queries it
issues (`db.query(Item).filter(Item.link_to != None)` and
`db.query(match).filter(Item.web_uri.in_(ln_item_paths))`) range over the
whole session `db` — neither is filtered by `publish_id`.  Both queries run
before the mutation loop starts, so the lookup table is fixed from the
pre-resolution state. -/
def resolve_links (db : List DbItem) : List DbItem × Option ResolveErr :=
  resolveLoop (matchesGet db (lnItemPaths db)) db

/-! ## String helpers

Executable models of the Python string operations used by the embedded code
(`str.startswith`, `str.endswith` / SQL `LIKE "%..."`, `str.split("/")`,
`"/".join`), written over character lists so that the kernel can evaluate
them on concrete inputs. -/

/-- Python `s.startswith(t)`. -/
def strStartsWith (s t : String) : Bool :=
  s.data.take t.data.length == t.data

/-- Python `s.endswith(t)`; also the SQL filter `LIKE "%" + t` used by
`AutoindexEnricher.repomd_xml_items`. -/
def strEndsWith (s t : String) : Bool :=
  s.data.reverse.take t.data.length == t.data.reverse

/-- Python `s.split("/")`: split at every slash, keeping empty components. -/
def splitSlashGo (acc : List Char) : List Char → List (List Char)
  | [] => [acc.reverse]
  | c :: rest =>
    if c == '/' then acc.reverse :: splitSlashGo [] rest
    else splitSlashGo (c :: acc) rest

/-- Python `s.split("/")`, as a list of strings. -/
def strSplitSlash (s : String) : List String :=
  (splitSlashGo [] s.data).map String.mk

/-- Python `"/".join(parts)`. -/
def joinSlash : List String → String
  | [] => ""
  | [s] => s
  | s :: t :: rest => s ++ "/" ++ joinSlash (t :: rest)

/-- Python slice `s[:-n]` for `0 < n ≤ len(s)`: drop the last `n`
characters (`Publish` items never hit the negative-wraparound case because
the slice is only applied to strings known to end in the stripped text). -/
def strDropLast (s : String) (n : Nat) : String :=
  String.mk (s.data.take (s.data.length - n))

/-! ## Item validation (`schemas.py`) -/

/-- Python `posixpath.normpath`, as called by `normalize_path` in
`schemas.py`: collapse empty and "." components, resolve ".." against
preceding components, and preserve the POSIX special case of exactly two
leading slashes.  The accumulator holds the processed components in reverse
(its head is Python's `new_comps[-1]`). -/
def npLoop (initialSlashes : Nat) (acc : List String) : List String → List String
  | [] => acc.reverse
  | comp :: rest =>
    if comp == "" || comp == "." then npLoop initialSlashes acc rest
    else if comp != ".." || (decide (initialSlashes = 0) && acc.isEmpty)
        || acc.head? == some ".." then
      npLoop initialSlashes (comp :: acc) rest
    else
      match acc with
      | [] => npLoop initialSlashes [] rest
      | _ :: accRest => npLoop initialSlashes accRest rest

/-- Python `posixpath.normpath`. -/
def normpath (path : String) : String :=
  if path == "" then "." else
  let initialSlashes : Nat :=
    if strStartsWith path "/" then
      if strStartsWith path "//" && !(strStartsWith path "///") then 2 else 1
    else 0
  let comps := strSplitSlash path
  let newComps := npLoop initialSlashes [] comps
  let joined := String.mk (List.replicate initialSlashes '/') ++ joinSlash newComps
  if joined == "" then "." else joined

/-- `normalize_path` (`schemas.py`): normalize non-empty paths and force a
leading slash. -/
def normalize_path (path : String) : String :=
  if path == "" then path
  else if strStartsWith (normpath path) "/" then normpath path
  else "/" ++ normpath path

/-- The input to `ItemBase.validate_item`: the four pydantic string fields,
with the empty string standing for each unset optional field, as in the
schema defaults. -/
structure ItemInput where
  web_uri : String
  object_key : String
  content_type : String
  link_to : String
deriving Repr, DecidableEq

/-- `INDEX_FILENAME` from `worker/autoindex.py`. -/
def INDEX_FILENAME : String := "__exodus_autoindex__"

/-- Modelled from the spec: `AUTOINDEX_FILENAME = Settings().autoindex_filename`
in `schemas.py` reads `exodus_gw/settings.py`, which is not included under
`src/`; per the spec (the configured reserved index filename, whose value the
spec's scenarios give as `__exodus_autoindex__`, matching `INDEX_FILENAME` in
`worker/autoindex.py`) it is the string below. -/
def AUTOINDEX_FILENAME : String := "__exodus_autoindex__"

/-- The character class `[0-9a-f]`. -/
def isHexLowerChar (c : Char) : Bool :=
  ('0' ≤ c && c ≤ '9') || ('a' ≤ c && c ≤ 'f')

/-- `re.match(SHA256SUM_PATTERN, s)` for the pattern `[0-9a-f]{64}`
(`schemas.py`).  `re.match` anchors at the start only, so a match exists iff
the string has at least 64 characters and its first 64 are lowercase hex. -/
def sha256sumMatch (s : String) : Bool :=
  decide (64 ≤ s.data.length) && (s.data.take 64).all isHexLowerChar

/-- The regex class `\w`, modelled over ASCII (Python's `re` is
Unicode-aware; the embedded checks only ever meet ASCII content types). -/
def isWordChar (c : Char) : Bool :=
  ('a' ≤ c && c ≤ 'z') || ('A' ≤ c && c ≤ 'Z') || ('0' ≤ c && c ≤ '9') || c == '_'

/-- `re.match(MIMETYPE_PATTERN, s)` for
`^[-\w]+/[-.\w]+(\+[-\w]*)?(;[-\w]+=[-\w]+)?` (`schemas.py`).  `re.match`
anchors at the start only, and both trailing groups are optional, so a match
exists iff the mandatory part `[-\w]+/[-.\w]+` matches at the start: a
non-empty run of `[-\w]` characters, a slash, then one `[-.\w]` character.
The slash belongs to neither class, so greediness causes no backtracking. -/
def mimetypeMatch (s : String) : Bool :=
  let isC1 : Char → Bool := fun c => c == '-' || isWordChar c
  let isC2 : Char → Bool := fun c => c == '-' || c == '.' || isWordChar c
  let run1 := s.data.takeWhile isC1
  !run1.isEmpty &&
    (match s.data.drop run1.length with
     | '/' :: c :: _ => isC2 c
     | _ => false)

/-- `ItemBase.validate_item` (`schemas.py`).  The checks run in source order.
The Python method captures the local variables `web_uri`, `object_key`,
`content_type` and `link_to` before any reassignment, so every check below
reads the original field values — in particular the reserved-filename check
at the end inspects the original, un-normalized `web_uri`.  On success the
result carries the normalized `web_uri` (and normalized `link_to` when set),
mirroring the assignments to `self`. -/
def validate_item (i : ItemInput) : Except String ItemInput :=
  if i.web_uri == "" then .error "No URI" else
  let self1 := { i with web_uri := normalize_path i.web_uri }
  if i.link_to != "" && i.object_key != "" then
    .error "Both link target and object key present" else
  if i.link_to != "" && i.content_type != "" then
    .error "Content type specified for link" else
  let self2 := if i.link_to != "" then { self1 with link_to := normalize_path i.link_to } else self1
  if i.link_to == "" && i.object_key == "absent" && i.content_type != "" then
    .error "Cannot set content type when object_key is absent" else
  if i.link_to == "" && i.object_key != "" && i.object_key != "absent"
      && !(sha256sumMatch i.object_key) then
    .error "Invalid object key; must be sha256sum" else
  if i.link_to == "" && i.object_key == "" then
    .error "No object key or link target" else
  if i.content_type != "" && !(mimetypeMatch i.content_type) then
    .error "Invalid content type" else
  if AUTOINDEX_FILENAME != "" && (strSplitSlash i.web_uri).getLast? == some AUTOINDEX_FILENAME then
    .error "filename is reserved" else
  .ok self2

/-! ## SHA-256 (`hashlib.sha256`, as used by `object_key` in
`worker/autoindex.py`)

A byte is a `Nat` below 256; 32-bit words are `Nat`s reduced modulo `2 ^ 32`
at every arithmetic step (FIPS 180-4). -/

/-- Truncation to 32 bits. -/
def m32 (x : Nat) : Nat := x % 4294967296

/-- Right rotation of a 32-bit word. -/
def rotr32 (n x : Nat) : Nat := m32 ((x / 2 ^ n) + (x % 2 ^ n) * 2 ^ (32 - n))

/-- FIPS 180-4 `Ch`. -/
def sha256Ch (x y z : Nat) : Nat := (x &&& y) ^^^ ((x ^^^ 4294967295) &&& z)

/-- FIPS 180-4 `Maj`. -/
def sha256Maj (x y z : Nat) : Nat := (x &&& y) ^^^ (x &&& z) ^^^ (y &&& z)

/-- FIPS 180-4 `Σ0`. -/
def bsig0 (x : Nat) : Nat := rotr32 2 x ^^^ rotr32 13 x ^^^ rotr32 22 x

/-- FIPS 180-4 `Σ1`. -/
def bsig1 (x : Nat) : Nat := rotr32 6 x ^^^ rotr32 11 x ^^^ rotr32 25 x

/-- FIPS 180-4 `σ0`. -/
def ssig0 (x : Nat) : Nat := rotr32 7 x ^^^ rotr32 18 x ^^^ (x / 2 ^ 3)

/-- FIPS 180-4 `σ1`. -/
def ssig1 (x : Nat) : Nat := rotr32 17 x ^^^ rotr32 19 x ^^^ (x / 2 ^ 10)

/-- The 64 SHA-256 round constants. -/
def sha256K : List Nat :=
  [1116352408, 1899447441, 3049323471, 3921009573, 961987163,
   1508970993, 2453635748, 2870763221, 3624381080, 310598401,
   607225278, 1426881987, 1925078388, 2162078206, 2614888103,
   3248222580, 3835390401, 4022224774, 264347078, 604807628,
   770255983, 1249150122, 1555081692, 1996064986, 2554220882,
   2821834349, 2952996808, 3210313671, 3336571891, 3584528711,
   113926993, 338241895, 666307205, 773529912, 1294757372,
   1396182291, 1695183700, 1986661051, 2177026350, 2456956037,
   2730485921, 2820302411, 3259730800, 3345764771, 3516065817,
   3600352804, 4094571909, 275423344, 430227734, 506948616,
   659060556, 883997877, 958139571, 1322822218, 1537002063,
   1747873779, 1955562222, 2024104815, 2227730452, 2361852424,
   2428436474, 2756734187, 3204031479, 3329325298]

/-- The SHA-256 initial hash value. -/
def sha256H0 : List Nat :=
  [1779033703, 3144134277, 1013904242, 2773480762, 1359893119,
   2600822924, 528734635, 1541459225]

/-- Big-endian byte decomposition of `x` into `n` bytes. -/
def bytesBE : Nat → Nat → List Nat
  | 0, _ => []
  | n + 1, x => (x / 2 ^ (8 * n)) % 256 :: bytesBE n x

/-- SHA-256 message padding: the byte 0x80, zero bytes up to 56 mod 64, then
the bit length in 8 big-endian bytes. -/
def sha256Pad (msg : List Nat) : List Nat :=
  let zeros := (119 - msg.length % 64) % 64
  msg ++ [0x80] ++ List.replicate zeros 0 ++ bytesBE 8 (msg.length * 8)

/-- Split a (padded) message into 64-byte chunks; the first argument is
structural fuel, always called with the list's length. -/
def chunks64Go : Nat → List Nat → List (List Nat)
  | _, [] => []
  | 0, _ => []
  | fuel + 1, l => l.take 64 :: chunks64Go fuel (l.drop 64)

/-- Split a padded message into its 64-byte chunks. -/
def chunks64 (l : List Nat) : List (List Nat) := chunks64Go l.length l

/-- The 16 initial 32-bit message-schedule words of one chunk (big-endian). -/
def chunkWords (chunk : List Nat) : List Nat :=
  (List.range 16).map (fun i =>
    chunk.getD (4 * i) 0 * 2 ^ 24 + chunk.getD (4 * i + 1) 0 * 2 ^ 16
      + chunk.getD (4 * i + 2) 0 * 2 ^ 8 + chunk.getD (4 * i + 3) 0)

/-- Extend the message schedule by `n` further words. -/
def extendSchedule : Nat → List Nat → List Nat
  | 0, w => w
  | n + 1, w =>
    let t := w.length
    extendSchedule n
      (w ++ [m32 (ssig1 (w.getD (t - 2) 0) + w.getD (t - 7) 0
        + ssig0 (w.getD (t - 15) 0) + w.getD (t - 16) 0)])

/-- The working state of the SHA-256 compression function. -/
structure Sha256State where
  a : Nat
  b : Nat
  c : Nat
  d : Nat
  e : Nat
  f : Nat
  g : Nat
  h : Nat
deriving Repr, DecidableEq

/-- One SHA-256 round, fed one `(K, W)` pair. -/
def sha256Round (st : Sha256State) (kw : Nat × Nat) : Sha256State :=
  let t1 := m32 (st.h + bsig1 st.e + sha256Ch st.e st.f st.g + kw.1 + kw.2)
  let t2 := m32 (bsig0 st.a + sha256Maj st.a st.b st.c)
  ⟨m32 (t1 + t2), st.a, st.b, st.c, m32 (st.d + t1), st.e, st.f, st.g⟩

/-- Compress one 64-byte chunk into the running hash value. -/
def sha256Chunk (h : List Nat) (chunk : List Nat) : List Nat :=
  let w := extendSchedule 48 (chunkWords chunk)
  let st0 : Sha256State := ⟨h.getD 0 0, h.getD 1 0, h.getD 2 0, h.getD 3 0,
    h.getD 4 0, h.getD 5 0, h.getD 6 0, h.getD 7 0⟩
  let st := (sha256K.zip w).foldl sha256Round st0
  [m32 (h.getD 0 0 + st.a), m32 (h.getD 1 0 + st.b), m32 (h.getD 2 0 + st.c),
   m32 (h.getD 3 0 + st.d), m32 (h.getD 4 0 + st.e), m32 (h.getD 5 0 + st.f),
   m32 (h.getD 6 0 + st.g), m32 (h.getD 7 0 + st.h)]

/-- SHA-256 of a byte sequence, as 32 digest bytes. -/
def sha256 (msg : List Nat) : List Nat :=
  let hFinal := (chunks64 (sha256Pad msg)).foldl sha256Chunk sha256H0
  hFinal.flatMap (bytesBE 4)

/-- The lowercase hexadecimal digit for `n < 16`. -/
def hexDigit (n : Nat) : Char :=
  if n < 10 then Char.ofNat (48 + n) else Char.ofNat (87 + n)

/-- Lowercase hexadecimal rendering of a byte sequence
(`hashlib`'s `hexdigest`). -/
def hexStr (bytes : List Nat) : String :=
  String.mk (bytes.flatMap (fun b => [hexDigit (b / 16 % 16), hexDigit (b % 16)]))

/-- Python `str.lower()`, ASCII case. -/
def strLower (s : String) : String := String.mk (s.data.map Char.toLower)

/-- UTF-8 encoding of one character (Python `str.encode("utf-8")`,
per code point). -/
def utf8EncodeCharNat (c : Char) : List Nat :=
  let n := c.toNat
  if n < 128 then [n]
  else if n < 2048 then [192 + n / 64, 128 + n % 64]
  else if n < 65536 then [224 + n / 4096, 128 + n / 64 % 64, 128 + n % 64]
  else [240 + n / 262144, 128 + n / 4096 % 64, 128 + n / 64 % 64, 128 + n % 64]

/-- Python `s.encode("utf-8")`, as a byte list. -/
def utf8Bytes (s : String) : List Nat := s.data.flatMap utf8EncodeCharNat

/-- `object_key` (`worker/autoindex.py`): feed the content to SHA-256 and
return `hexdigest().lower()`. -/
def object_key (content : List Nat) : String := strLower (hexStr (sha256 content))

/-! ## The autoindex enricher (`worker/autoindex.py`) -/

/-- One `GeneratedIndex` yielded by the external `repo_autoindex.autoindex`
generator: a relative directory (the empty string models both Python's
`None` and `""`, which the truthiness test `if idx.relative_dir` treats
alike) and the document's textual content. -/
structure GenDoc where
  relative_dir : String
  content : String
deriving Repr, DecidableEq

/-- The observable behaviour of the external generator on one repository
root: the documents it yields, and whether it (or the per-document upload)
raises after yielding them.  `ok docs` is a run to completion, `err docs` a
run that raises after `docs` were yielded and persisted. -/
inductive GenOutcome where
  | ok (docs : List GenDoc)
  | err (docs : List GenDoc)
deriving Repr, DecidableEq

/-- The documents yielded before completion or failure. -/
def GenOutcome.docs : GenOutcome → List GenDoc
  | .ok d => d
  | .err d => d

/-- Whether the outcome is a failure. -/
def GenOutcome.isErr : GenOutcome → Bool
  | .ok _ => false
  | .err _ => true

/-- The `Item` constructed for one yielded document inside
`AutoindexEnricher.autoindex_items`: the web URI joins the base URI, the
relative directory when non-empty, and `INDEX_FILENAME`; the object key is
the content-addressed `object_key` of the UTF-8 content; the content type is
the fixed HTML type; the row belongs to the enricher's publish. -/
def autoindexDbItem (pub : Nat) (base_uri : String) (idx : GenDoc) : DbItem :=
  { web_uri :=
      joinSlash ([base_uri]
        ++ (if idx.relative_dir == "" then [] else [idx.relative_dir])
        ++ [INDEX_FILENAME])
    object_key := some (object_key (utf8Bytes idx.content))
    content_type := some "text/html; charset=UTF-8"
    link_to := none
    publish_id := pub }

/-- `self.item_query` in `AutoindexEnricher.__init__`: the session's items
filtered to the enricher's publish. -/
def itemQuery (db : List DbItem) (pub : Nat) : List DbItem :=
  db.filter (fun i => i.publish_id == pub)

/-- `AutoindexEnricher.repomd_xml_items`: the publish's items whose URI ends
with `/repodata/repomd.xml` (SQL `LIKE "%/repodata/repomd.xml"`). -/
def repomdXmlItems (db : List DbItem) (pub : Nat) : List DbItem :=
  (itemQuery db pub).filter (fun i => strEndsWith i.web_uri "/repodata/repomd.xml")

/-- `AutoindexEnricher.uris_for_autoindex`: for each repomd marker item,
strip the `/repodata/repomd.xml` tail to get the repository root, and keep
the root unless an item already exists at `root/INDEX_FILENAME` within the
publish (the `.count()` truthiness check). -/
def urisForAutoindex (db : List DbItem) (pub : Nat) : List String :=
  (repomdXmlItems db pub).filterMap (fun item =>
    let base_repo_uri := strDropLast item.web_uri ("/repodata/repomd.xml").length
    let index_uri := base_repo_uri ++ "/" ++ INDEX_FILENAME
    if (itemQuery db pub).any (fun i => i.web_uri == index_uri) then none
    else some base_repo_uri)

/-- The `for base_uri in uris` loop of `AutoindexEnricher.run`, processing
the precomputed eligible roots in order.  Each document yielded for a root is
added to the session and committed immediately (`self.db.add(item)`;
`self.db.commit()`).  The loop body has no exception handler, so a failure
while generating or uploading one document propagates out of `run`: the
documents already committed stay, and no later root is processed.  The result
carries the session after the run, the roots actually attempted, and the
root whose generation raised, if any. -/
def runLoop (gen : String → GenOutcome) (pub : Nat) :
    List String → List DbItem → List DbItem × List String × Option String
  | [], db => (db, [], none)
  | u :: rest, db =>
    let db1 := db ++ ((gen u).docs).map (autoindexDbItem pub u)
    match gen u with
    | .err _ => (db1, [u], some u)
    | .ok _ =>
      let r := runLoop gen pub rest db1
      (r.1, u :: r.2.1, r.2.2)

/-- `AutoindexEnricher.run`: compute the eligible roots once, then process
them in order.  The external generator (and the S3 uploads interleaved with
it) is summarized by `gen`, giving each root's outcome; the same `gen` models
repeated runs of the deterministic generation over unchanged backend
content. -/
def runAutoindex (gen : String → GenOutcome) (pub : Nat) (db : List DbItem) :
    List DbItem × List String × Option String :=
  runLoop gen pub (urisForAutoindex db pub) db

/-! ## The publish content fetcher (`PublishContentFetcher` in
`worker/autoindex.py`) -/

/-- One S3 `get_object` response, reduced to the fields the fetcher reads:
the reported content type and the body.  The body is kept as the text it
decodes to; gzip decompression is abstracted by a caller-supplied
function. -/
structure S3Resp where
  content_type : String
  body : String
deriving Repr, DecidableEq

/-- The outcome of `PublishContentFetcher.__call__`: the returned value
(`none` models Python's `return None`, the "no content available" result) or
a propagated backend error, together with the list of keys passed to
`get_object` (empty when the backend was never consulted).  The backend is
modelled by `s3get`, taking the `Key` argument (`none` models passing a null
key, possible since `Item.object_key` is nullable) and answering `none` on a
communication failure, which the Python code lets propagate. -/
def fetcherCall (db : List DbItem) (pub : Nat)
    (s3get : Option String → Option S3Resp) (gunzip : String → String)
    (uri : String) : Except Unit (Option String) × List (Option String) :=
  let matched := db.filter (fun i => i.publish_id == pub && i.web_uri == uri)
  match matched with
  | [] => (.ok none, [])
  | item :: _ =>
    let key := item.object_key
    match s3get key with
    | none => (.error (), [key])
    | some resp =>
      let content :=
        if strEndsWith uri ".gz"
            && (resp.content_type == "binary/octet-stream"
              || resp.content_type == "application/octet-stream"
              || resp.content_type == "application/x-gzip") then
          gunzip resp.body
        else resp.body
      (.ok (some content), [key])

/-! ## The pooled storage-client dependency (`deps.py`) -/

/-- `queue_for_profile` (`deps.py`): eagerly construct clients until the
LIFO queue of capacity `maxsize` is full.  The list head is the top of the
LIFO store (the most recently put client); `mk` stands for
`S3ClientWrapper(profile).__aenter__()`, numbering the constructed clients. -/
def queue_for_profile (mk : Nat → Nat) (maxsize : Nat) : List Nat :=
  (List.range maxsize).reverse.map mk

/-- Look up a profile's queue in the global `s3_queues` mapping. -/
def poolFind (pools : List (String × List Nat)) (profile : String) : Option (List Nat) :=
  (pools.find? (fun e => e.1 == profile)).map (fun e => e.2)

/-- Replace a profile's queue in the global `s3_queues` mapping. -/
def poolSet (pools : List (String × List Nat)) (profile : String) (q : List Nat) :
    List (String × List Nat) :=
  pools.map (fun e => if e.1 == profile then (profile, q) else e)

/-- `get_s3_client` (`deps.py`) around one caller's unit of work: create the
profile's pool on first use (three clients), pop a client (`queue.get`), run
the dependent work, and put the client back in a `finally` block whether the
work returned or raised.  The result is `none` when `queue.get()` would block
forever (empty queue); otherwise it carries the final pool mapping and the
work's outcome, which is re-raised or returned unchanged. -/
def get_s3_client (pools : List (String × List Nat)) (mk : Nat → Nat)
    (profile : String) (work : Nat → Except Unit Nat) :
    Option (List (String × List Nat) × Except Unit Nat) :=
  let pools1 :=
    match poolFind pools profile with
    | none => pools ++ [(profile, queue_for_profile mk 3)]
    | some _ => pools
  match poolFind pools1 profile with
  | none => none
  | some [] => none
  | some (c :: rest) =>
    let checkedOut := poolSet pools1 profile rest
    let res := work c
    some (poolSet checkedOut profile (c :: rest), res)

/-! ## Concrete sessions and generators used as proof inputs -/

/-- A one-publish session: a concrete item and a link to it. -/
def dbLink : List DbItem :=
  [⟨"/repo/a", some "K", none, none, 7⟩,
   ⟨"/repo/link", none, none, some "/repo/a", 7⟩]

/-- A one-publish session whose second link targets a missing URI; the first
link resolves before the failure is noticed. -/
def dbPartial : List DbItem :=
  [⟨"/a", some "K", none, none, 7⟩,
   ⟨"/l1", none, none, some "/a", 7⟩,
   ⟨"/l2", none, none, some "/missing", 7⟩]

/-- A session holding two publishes: publish 1 owns the concrete item,
publish 2 owns a link whose target URI exists only in publish 1. -/
def dbCross : List DbItem :=
  [⟨"/a", some "K", none, none, 1⟩,
   ⟨"/l", none, none, some "/a", 2⟩]


/-- A session with two repository roots, both bearing metadata markers. -/
def dbTwoRoots : List DbItem :=
  [⟨"/r1/repodata/repomd.xml", some "K1", none, none, 1⟩,
   ⟨"/r2/repodata/repomd.xml", some "K2", none, none, 1⟩]

/-- A generator failing on the first root before yielding any document and
yielding one root-level document on the second. -/
def genFirstFails : String → GenOutcome :=
  fun u => if u == "/r1" then .err [] else .ok [⟨"", "index"⟩]

/-- A session with a single repository root lacking an index. -/
def dbOneRoot : List DbItem := [⟨"/r/repodata/repomd.xml", some "K", none, none, 1⟩]

/-- A generator yielding one root-level document for every root. -/
def genRoot : String → GenOutcome := fun _ => .ok [⟨"", "index"⟩]

/-- A session holding one tombstone item (object key "absent"). -/
def dbTombstone : List DbItem := [⟨"/t", some "absent", none, none, 3⟩]

/-- A backend answering every key with an empty text/plain object. -/
def s3Const : Option String → Option S3Resp := fun _ => some ⟨"text/plain", "body"⟩

/-- The rewrite applied to one row by a completed pass of the resolution
loop: link rows get `object_key` overwritten by the lookup of their target,
other rows are untouched.  (Introduced for the analysis of `resolveLoop`;
not part of the embedded code.) -/
def resolveRow (get : String → Option String) (i : DbItem) : DbItem :=
  match i.link_to with
  | none => i
  | some t => { i with object_key := get t }

/-! ## Link resolution: behaviour of the loop -/

/-- A successful pass (no error raised) rewrites every row by `resolveRow`,
and every link row's lookup was truthy. -/
theorem resolveLoop_ok_spec (get : String → Option String) :
    ∀ (l l' : List DbItem), resolveLoop get l = (l', none) →
      l' = l.map (resolveRow get) ∧
      ∀ i ∈ l, ∀ t, i.link_to = some t → keyFalsy (get t) = false := by
  intro l
  induction l with
  | nil =>
    intro l' h
    simp only [resolveLoop, Prod.mk.injEq] at h
    simp [← h.1]
  | cons i rest ih =>
    intro l' h
    rcases hr : resolveLoop get rest with ⟨restOut, err⟩
    cases hlt : i.link_to with
    | none =>
      simp only [resolveLoop, hlt, hr, Prod.mk.injEq] at h
      obtain ⟨h1, h2⟩ := h
      obtain ⟨hmap, hlinks⟩ := ih restOut (by rw [hr, h2])
      subst h1
      refine ⟨by simp [List.map_cons, resolveRow, hlt, hmap], ?_⟩
      intro j hj t ht
      cases hj with
      | head => rw [hlt] at ht; exact absurd ht (by simp)
      | tail _ hj2 => exact hlinks j hj2 t ht
    | some t0 =>
      cases hkf : keyFalsy (get t0) with
      | true => simp [resolveLoop, hlt, hkf, hr] at h
      | false =>
        simp only [resolveLoop, hlt, hkf, Bool.false_eq_true, if_false, hr,
          Prod.mk.injEq] at h
        obtain ⟨h1, h2⟩ := h
        obtain ⟨hmap, hlinks⟩ := ih restOut (by rw [hr, h2])
        subst h1
        refine ⟨by simp [List.map_cons, resolveRow, hlt, hmap], ?_⟩
        intro j hj t ht
        cases hj with
        | head =>
          rw [hlt] at ht
          obtain rfl : t0 = t := by simpa using ht
          exact hkf
        | tail _ hj2 => exact hlinks j hj2 t ht

/-- A failing pass raises at the first link row whose lookup is falsy: the
raised error carries that row's URI and target, rows before it are rewritten
by `resolveRow` (their lookups all truthy), the offending row keeps the falsy
assignment, and rows after it are untouched. -/
theorem resolveLoop_err_spec (get : String → Option String) :
    ∀ (l l' : List DbItem) (e : ResolveErr), resolveLoop get l = (l', some e) →
      ∃ k, ∃ hk : k < l.length, ∃ t,
        (l.get ⟨k, hk⟩).link_to = some t ∧
        keyFalsy (get t) = true ∧
        e = ⟨(l.get ⟨k, hk⟩).web_uri, some t⟩ ∧
        (∀ j ∈ l.take k, ∀ t2, j.link_to = some t2 → keyFalsy (get t2) = false) ∧
        l' = (l.take k).map (resolveRow get)
          ++ { l.get ⟨k, hk⟩ with object_key := get t } :: l.drop (k + 1) := by
  intro l
  induction l with
  | nil =>
    intro l' e h
    simp [resolveLoop] at h
  | cons i rest ih =>
    intro l' e h
    rcases hr : resolveLoop get rest with ⟨restOut, err⟩
    cases hlt : i.link_to with
    | none =>
      simp only [resolveLoop, hlt, hr, Prod.mk.injEq] at h
      obtain ⟨h1, h2⟩ := h
      obtain ⟨k, hk, t, hkt, hkf, he, hbefore, hshape⟩ := ih restOut e (by rw [hr, h2])
      refine ⟨k + 1, Nat.succ_lt_succ hk, t, hkt, hkf, he, ?_, ?_⟩
      · intro j hj t2 ht2
        cases hj with
        | head => rw [hlt] at ht2; exact absurd ht2 (by simp)
        | tail _ hj2 => exact hbefore j hj2 t2 ht2
      · rw [← h1, hshape]
        simp [resolveRow, hlt]
    | some t0 =>
      cases hkf : keyFalsy (get t0) with
      | true =>
        simp only [resolveLoop, hlt, hkf, if_true, Prod.mk.injEq] at h
        obtain ⟨h1, h2⟩ := h
        refine ⟨0, Nat.succ_pos _, t0, hlt, hkf, ?_, by simp, ?_⟩
        · injection h2 with h2e
          exact h2e.symm
        · rw [← h1]; simp [hlt]
      | false =>
        simp only [resolveLoop, hlt, hkf, Bool.false_eq_true, if_false, hr,
          Prod.mk.injEq] at h
        obtain ⟨h1, h2⟩ := h
        obtain ⟨k, hk, t, hkt, hkf2, he, hbefore, hshape⟩ := ih restOut e (by rw [hr, h2])
        refine ⟨k + 1, Nat.succ_lt_succ hk, t, hkt, hkf2, he, ?_, ?_⟩
        · intro j hj t2 ht2
          cases hj with
          | head =>
            rw [hlt] at ht2
            obtain rfl : t0 = t2 := by simpa using ht2
            exact hkf
          | tail _ hj2 => exact hbefore j hj2 t2 ht2
        · rw [← h1, hshape]
          simp [resolveRow, hlt]

/-- When the lookup of `t` is truthy, the dictionary entry comes from an
actual session row whose `web_uri` is `t`. -/
theorem matchesGet_eq_some (db : List DbItem) (paths : List String) (t : String)
    (h : keyFalsy (matchesGet db paths t) = false) :
    ∃ row ∈ db, row.web_uri = t ∧ matchesGet db paths t = row.object_key := by
  rcases hlast : (db.filter
      (fun i => i.web_uri == t && paths.contains i.web_uri)).getLast? with _ | row
  · rw [matchesGet, hlast] at h
    simp [keyFalsy] at h
  · have hmem : row ∈ db.filter (fun i => i.web_uri == t && paths.contains i.web_uri) := by
      obtain ⟨h2, rfl⟩ := List.mem_getLast?_eq_getLast (Option.mem_def.mpr hlast)
      exact List.getLast_mem h2
    obtain ⟨hmem2, hpred⟩ := List.mem_filter.mp hmem
    refine ⟨row, hmem2, ?_, ?_⟩
    · exact eq_of_beq (Bool.and_eq_true .. ▸ hpred).1
    · rw [matchesGet, hlast]

/-- `resolveRow` on a link row. -/
theorem resolveRow_of_link (get : String → Option String) (i : DbItem) (t : String)
    (h : i.link_to = some t) : resolveRow get i = { i with object_key := get t } := by
  unfold resolveRow
  rw [h]

/-- `resolveRow` on a non-link row. -/
theorem resolveRow_of_nonlink (get : String → Option String) (i : DbItem)
    (h : i.link_to = none) : resolveRow get i = i := by
  unfold resolveRow
  rw [h]

/-- C1: for every publish on which link resolution succeeds, every item that
had `link_to` set ends with `object_key` equal to the `object_key` of the
(unique, by the no-duplicate-URI hypothesis) item whose `web_uri` equals the
original `link_to` value; that key is moreover truthy.  The session `db`
holds the publish's items (`hpub`); cross-publish sessions are the subject of
C3. -/
theorem resolve_links_success_resolves (db db' : List DbItem) (p : Nat)
    (hpub : ∀ i ∈ db, i.publish_id = p)
    (hnodup : (db.map (fun i => i.web_uri)).Nodup)
    (hok : resolve_links db = (db', none))
    (k : Nat) (hk : k < db.length) (t : String)
    (hlink : (db.get ⟨k, hk⟩).link_to = some t) :
    ∃ j ∈ db, j.web_uri = t ∧
      (∀ j2 ∈ db, j2.web_uri = t → j2 = j) ∧
      ∃ hk' : k < db'.length,
        (db'.get ⟨k, hk'⟩).object_key = j.object_key ∧ keyFalsy j.object_key = false := by
  obtain ⟨hmap, hlinks⟩ := resolveLoop_ok_spec (matchesGet db (lnItemPaths db)) db db' hok
  have hfal : keyFalsy (matchesGet db (lnItemPaths db) t) = false :=
    hlinks (db.get ⟨k, hk⟩) (db.get_mem k hk) t hlink
  obtain ⟨row, hrowMem, hrowUri, hrowKey⟩ := matchesGet_eq_some db (lnItemPaths db) t hfal
  refine ⟨row, hrowMem, hrowUri, ?_, ?_⟩
  · intro j2 hj2 hj2uri
    exact List.inj_on_of_nodup_map hnodup hj2 hrowMem (by rw [hj2uri, hrowUri])
  · have hk' : k < db'.length := by rw [hmap, List.length_map]; exact hk
    refine ⟨hk', ?_, hrowKey ▸ hfal⟩
    have hget : db'.get ⟨k, hk'⟩ = resolveRow (matchesGet db (lnItemPaths db)) (db.get ⟨k, hk⟩) := by
      subst hmap
      simp [List.get_eq_getElem, List.getElem_map]
    rw [hget, resolveRow_of_link _ _ t hlink, ← hrowKey]

/-- Witness for C1 at a concrete publish: the session `dbLink` with one
concrete item and one link to it resolves successfully, and the theorem
applies at the link row. -/
theorem resolve_links_success_resolves_witness :
    ∃ j ∈ dbLink, j.web_uri = "/repo/a" ∧
      (∀ j2 ∈ dbLink, j2.web_uri = "/repo/a" → j2 = j) ∧
      ∃ hk' : 1 < (resolve_links dbLink).1.length,
        (((resolve_links dbLink).1).get ⟨1, hk'⟩).object_key = j.object_key ∧
          keyFalsy j.object_key = false :=
  resolve_links_success_resolves dbLink (resolve_links dbLink).1 7
    (by decide) (by decide)
    (by decide)
    1 (by decide) "/repo/a" (by decide)

/-- Truthiness of the lookup table entry for a target URI all of whose
session rows carry falsy keys (in particular for a target matching no row at
all): the entry is falsy. -/
theorem matchesGet_falsy (db : List DbItem) (paths : List String) (t : String)
    (h : ∀ j ∈ db, j.web_uri = t → keyFalsy j.object_key = true) :
    keyFalsy (matchesGet db paths t) = true := by
  rcases hlast : (db.filter
      (fun i => i.web_uri == t && paths.contains i.web_uri)).getLast? with _ | row
  · rw [matchesGet, hlast]
    rfl
  · have hmem : row ∈ db.filter (fun i => i.web_uri == t && paths.contains i.web_uri) := by
      obtain ⟨h2, rfl⟩ := List.mem_getLast?_eq_getLast (Option.mem_def.mpr hlast)
      exact List.getLast_mem h2
    obtain ⟨hmem2, hpred⟩ := List.mem_filter.mp hmem
    rw [matchesGet, hlast]
    exact h row hmem2 (eq_of_beq (Bool.and_eq_true .. ▸ hpred).1)

/-- C2 counterexample: on the session `dbPartial`, resolution raises on the
second link (target `/missing` matches nothing), yet by that time the first
link row has already been rewritten: its `object_key` changed from null to
the resolved key, so an item other than the offending one *is* mutated by the
failing run, against the claim's "no other item of the publish is mutated". -/
theorem resolve_links_failure_mutates_counterexample :
    (resolve_links dbPartial).2 = some ⟨"/l2", some "/missing"⟩ ∧
      (dbPartial.get ⟨1, by decide⟩).link_to ≠ some "/missing" ∧
      (resolve_links dbPartial).1.get ⟨1, by decide⟩ ≠ dbPartial.get ⟨1, by decide⟩ ∧
      ((resolve_links dbPartial).1.get ⟨1, by decide⟩).object_key = some "K" := by
  decide

/-- C2 (amended): if a publish contains a link item whose target is not the
`web_uri` of any item carrying a truthy `object_key`, resolution raises an
error identifying the first such offending item's URI and its unresolved
target; the raise leaves every non-link item and every item after the
offending one untouched, while link items before the offending one have
already been rewritten in place (the raised error is what prevents these
partial rewrites from being committed). -/
theorem resolve_links_failure_spec (db : List DbItem) (p : Nat) (i0 : DbItem) (t0 : String)
    (hpub : ∀ i ∈ db, i.publish_id = p)
    (hmem : i0 ∈ db) (hlink : i0.link_to = some t0)
    (hconc : ∀ j ∈ db, j.web_uri = t0 → keyFalsy j.object_key = true) :
    ∃ db' e, resolve_links db = (db', some e) ∧
      db'.length = db.length ∧
      ∃ k, ∃ hk : k < db.length, ∃ t,
        (db.get ⟨k, hk⟩).link_to = some t ∧
        e = ⟨(db.get ⟨k, hk⟩).web_uri, some t⟩ ∧
        keyFalsy (matchesGet db (lnItemPaths db) t) = true ∧
        (∀ (j : Nat) (i : DbItem), db[j]? = some i → i.link_to = none → db'[j]? = some i) ∧
        (∀ j : Nat, k < j → db'[j]? = db[j]?) := by
  rcases hres : resolve_links db with ⟨db', err⟩
  have hfal : keyFalsy (matchesGet db (lnItemPaths db) t0) = true :=
    matchesGet_falsy db (lnItemPaths db) t0 hconc
  cases err with
  | none =>
    obtain ⟨-, hlinks⟩ := resolveLoop_ok_spec (matchesGet db (lnItemPaths db)) db db' hres
    rw [hlinks i0 hmem t0 hlink] at hfal
    exact absurd hfal (by simp)
  | some e =>
    obtain ⟨k, hk, t, hkt, hkf, he, hbefore, hshape⟩ :=
      resolveLoop_err_spec (matchesGet db (lnItemPaths db)) db db' e hres
    subst hshape
    have hmaplen : ((db.take k).map (resolveRow (matchesGet db (lnItemPaths db)))).length = k := by
      simp only [List.length_map, List.length_take]
      omega
    have hafter : ∀ j, k < j →
        ((db.take k).map (resolveRow (matchesGet db (lnItemPaths db)))
          ++ { db.get ⟨k, hk⟩ with object_key := matchesGet db (lnItemPaths db) t }
            :: db.drop (k + 1))[j]? = db[j]? := by
      intro j hcmp
      rw [List.getElem?_append_right (by omega : ((db.take k).map (resolveRow (matchesGet db (lnItemPaths db)))).length ≤ j)]
      rw [hmaplen]
      have hidx : j - k = (j - k - 1) + 1 := by omega
      rw [hidx, List.getElem?_cons_succ, List.getElem?_drop]
      have hidx2 : k + 1 + (j - k - 1) = j := by omega
      rw [hidx2]
    refine ⟨_, e, rfl, ?_, k, hk, t, hkt, he, hkf, ?_, hafter⟩
    · simp only [List.length_append, List.length_map, List.length_take,
        List.length_cons, List.length_drop]
      omega
    · intro j i hji hnone
      rcases Nat.lt_trichotomy j k with hcmp | hcmp | hcmp
      · rw [List.getElem?_append, if_pos (by omega : j < ((db.take k).map (resolveRow (matchesGet db (lnItemPaths db)))).length)]
        rw [List.getElem?_map, List.getElem?_take, if_pos hcmp, hji]
        simp [resolveRow_of_nonlink _ _ hnone]
      · subst hcmp
        have : db[j]? = some (db.get ⟨j, hk⟩) := by
          simp [List.getElem?_eq_getElem, List.get_eq_getElem]
        rw [this] at hji
        obtain rfl : db.get ⟨j, hk⟩ = i := by simpa using hji
        rw [hkt] at hnone
        exact absurd hnone (by simp)
      · rw [hafter j hcmp, hji]

/-- Witness for C2 (amended) on the concrete session `dbPartial`, whose last
link targets a URI matching no item. -/
theorem resolve_links_failure_spec_witness :
    ∃ db' e, resolve_links dbPartial = (db', some e) ∧
      db'.length = dbPartial.length ∧
      ∃ k, ∃ hk : k < dbPartial.length, ∃ t,
        (dbPartial.get ⟨k, hk⟩).link_to = some t ∧
        e = ⟨(dbPartial.get ⟨k, hk⟩).web_uri, some t⟩ ∧
        keyFalsy (matchesGet dbPartial (lnItemPaths dbPartial) t) = true ∧
        (∀ (j : Nat) (i : DbItem), dbPartial[j]? = some i → i.link_to = none →
          db'[j]? = some i) ∧
        (∀ j : Nat, k < j → db'[j]? = dbPartial[j]?) :=
  resolve_links_failure_spec dbPartial 7 ⟨"/l2", none, none, some "/missing", 7⟩ "/missing"
    (by decide) (by decide) (by decide) (by decide)

/-- C3: evidence of the missing publish filter in `Publish.resolve_links`.
On the two-publish session `dbCross`, resolution succeeds and rewrites the
link row owned by publish 2 using the key of the item owned by publish 1:
an item of another publish is both consulted and mutated, although the spec
requires resolution to read and mutate only the one publish's items. -/
theorem resolve_links_crosses_publishes :
    (resolve_links dbCross).2 = none ∧
    (dbCross.get ⟨1, by decide⟩).publish_id ≠ (dbCross.get ⟨0, by decide⟩).publish_id ∧
    (dbCross.get ⟨1, by decide⟩).object_key = none ∧
    ((resolve_links dbCross).1.get ⟨1, by decide⟩).publish_id = 2 ∧
    ((resolve_links dbCross).1.get ⟨1, by decide⟩).object_key = some "K" ∧
    (dbCross.get ⟨0, by decide⟩).object_key = some "K" := by
  decide

/-- `normalize_path` never returns the empty string on non-empty input. -/
theorem normalize_path_ne_empty (s : String) (h : s ≠ "") : normalize_path s ≠ "" := by
  unfold normalize_path
  rw [if_neg (show ¬((s == "") = true) by simpa using h)]
  split_ifs with h2
  · intro hcontra
    rw [hcontra] at h2
    simp [strStartsWith] at h2
  · intro hcontra
    have hd := congrArg String.data hcontra
    rw [String.data_append] at hd
    simp at hd

/-- C4 counterexample: after the successful resolution of `dbLink`, the link
row carries BOTH `link_to` and a truthy `object_key` — `resolve_links`
assigns the key but never clears `link_to`, so mutual exclusivity does not
survive a successful link resolution. -/
theorem resolution_breaks_exclusivity_counterexample :
    (resolve_links dbLink).2 = none ∧
    ((resolve_links dbLink).1.get ⟨1, by decide⟩).link_to = some "/repo/a" ∧
    ((resolve_links dbLink).1.get ⟨1, by decide⟩).object_key = some "K" := by
  decide

/-- C4 (amended): item validation establishes the invariant (`link_to` and
`object_key` mutually exclusive, at least one present) on the items it
accepts, and autoindex generation creates items satisfying it (a key and no
link); successful link resolution preserves the "at least one present" half —
every row of the resolved session carries a link or a key — but not mutual
exclusivity, since resolved link rows keep `link_to` beside the assigned
`object_key` (see the counterexample). -/
theorem core_invariant_spec :
    (∀ (i r : ItemInput), validate_item i = .ok r →
      ((r.link_to = "" → r.object_key ≠ "") ∧ (r.link_to ≠ "" → r.object_key = ""))) ∧
    (∀ (pub : Nat) (base : String) (idx : GenDoc),
      (autoindexDbItem pub base idx).link_to = none ∧
        (autoindexDbItem pub base idx).object_key ≠ none) ∧
    (∀ (db db' : List DbItem), resolve_links db = (db', none) →
      (∀ i ∈ db, i.link_to ≠ none ∨ i.object_key ≠ none) →
      ∀ i2 ∈ db', i2.link_to ≠ none ∨ i2.object_key ≠ none) := by
  refine ⟨?_, ?_, ?_⟩
  · intro i r h
    unfold validate_item at h
    split_ifs at h with h1 h2 h3 h4 h5 h6 h7 h8 h9 h10 h11 h12 h13 h14
    · injection h with hr
      subst hr
      have hl2 : i.link_to ≠ "" := by simpa using h4
      have hk2 : i.object_key = "" := by
        by_contra hk3
        exact h2 (by simp [hl2, hk3])
      refine ⟨?_, fun _ => hk2⟩
      intro hcontra
      exact absurd hcontra (normalize_path_ne_empty i.link_to hl2)
    · injection h with hr
      subst hr
      have hl2 : i.link_to = "" := by simpa using h4
      have hk2 : i.object_key ≠ "" := by
        intro hk3
        exact h12 (by simp [hl2, hk3])
      exact ⟨fun _ => hk2, fun hcontra => absurd hl2 hcontra⟩
  · intro pub base idx
    simp [autoindexDbItem]
  · intro db db' hok hpresent i2 hmem
    obtain ⟨hmap, hlinks⟩ := resolveLoop_ok_spec (matchesGet db (lnItemPaths db)) db db' hok
    subst hmap
    obtain ⟨i, hi, rfl⟩ := List.mem_map.mp hmem
    cases hlt : i.link_to with
    | none =>
      rw [resolveRow_of_nonlink _ _ hlt]
      exact hpresent i hi
    | some t =>
      rw [resolveRow_of_link _ _ t hlt]
      left
      simp [hlt]

/-- Witness for C4 (amended): the resolution part applied to the concrete
resolved session of `dbLink` at its link row. -/
theorem core_invariant_spec_witness :
    ((resolve_links dbLink).1.get ⟨1, by decide⟩).link_to ≠ none ∨
      ((resolve_links dbLink).1.get ⟨1, by decide⟩).object_key ≠ none :=
  core_invariant_spec.2.2 dbLink (resolve_links dbLink).1 (by decide) (by decide)
    ((resolve_links dbLink).1.get ⟨1, by decide⟩) (List.get_mem _ 1 (by decide))

/-! ## The autoindex run loop -/

/-- A completed run (no root raised) persists exactly the generated items of
every eligible root, attempts every root, and saw no failing outcome. -/
theorem runLoop_ok_spec (gen : String → GenOutcome) (pub : Nat) :
    ∀ (us : List String) (db db' : List DbItem) (att : List String),
      runLoop gen pub us db = (db', att, none) →
      db' = db ++ us.flatMap (fun u => ((gen u).docs).map (autoindexDbItem pub u)) ∧
      att = us ∧ ∀ u ∈ us, (gen u).isErr = false := by
  intro us
  induction us with
  | nil =>
    intro db db' att h
    simp only [runLoop, Prod.mk.injEq] at h
    obtain ⟨h1, h2, -⟩ := h
    simp [← h1, ← h2]
  | cons u rest ih =>
    intro db db' att h
    cases hg : gen u with
    | err docs => simp [runLoop, hg] at h
    | ok docs =>
      rcases hr : runLoop gen pub rest
          (db ++ ((gen u).docs).map (autoindexDbItem pub u)) with ⟨dbr, attr, errr⟩
      rw [hg] at hr
      simp only [runLoop, hg, hr, Prod.mk.injEq] at h
      obtain ⟨h1, h2, h3⟩ := h
      obtain ⟨hdb, hatt, hokr⟩ := ih (db ++ ((gen u).docs).map (autoindexDbItem pub u))
        dbr attr (by rw [hg, hr, h3])
      refine ⟨?_, ?_, ?_⟩
      · rw [← h1, hdb, List.flatMap_cons, hg, List.append_assoc]
      · rw [← h2, hatt]
      · intro v hv
        cases hv with
        | head => simp [GenOutcome.isErr, hg]
        | tail _ hv2 => exact hokr v hv2

/-- A failing run stops at the first root whose generation raises: that
root's already-yielded documents (and all items of the roots before it) are
persisted, the attempted list is cut off right after the failing root, and
no later root is processed. -/
theorem runLoop_err_spec (gen : String → GenOutcome) (pub : Nat) :
    ∀ (us : List String) (db db' : List DbItem) (att : List String) (e : String),
      runLoop gen pub us db = (db', att, some e) →
      ∃ k, ∃ hk : k < us.length,
        us.get ⟨k, hk⟩ = e ∧ (gen e).isErr = true ∧
        (∀ u ∈ us.take k, (gen u).isErr = false) ∧
        att = us.take (k + 1) ∧
        db' = db ++ (us.take k).flatMap (fun u => ((gen u).docs).map (autoindexDbItem pub u))
          ++ ((gen e).docs).map (autoindexDbItem pub e) := by
  intro us
  induction us with
  | nil =>
    intro db db' att e h
    simp [runLoop] at h
  | cons u rest ih =>
    intro db db' att e h
    cases hg : gen u with
    | err docs =>
      simp only [runLoop, hg, Prod.mk.injEq] at h
      obtain ⟨h1, h2, h3⟩ := h
      obtain rfl : u = e := by simpa using h3
      refine ⟨0, Nat.succ_pos _, rfl, by simp [GenOutcome.isErr, hg], by simp, ?_, ?_⟩
      · rw [← h2]
        simp
      · rw [← h1, hg]
        simp
    | ok docs =>
      rcases hr : runLoop gen pub rest
          (db ++ ((gen u).docs).map (autoindexDbItem pub u)) with ⟨dbr, attr, errr⟩
      rw [hg] at hr
      simp only [runLoop, hg, hr, Prod.mk.injEq] at h
      obtain ⟨h1, h2, h3⟩ := h
      obtain ⟨k, hk, hke, hkerr, hbefore, hatt, hdb⟩ :=
        ih (db ++ ((gen u).docs).map (autoindexDbItem pub u)) dbr attr e (by rw [hg, hr, h3])
      refine ⟨k + 1, Nat.succ_lt_succ hk, hke, hkerr, ?_, ?_, ?_⟩
      · intro v hv
        cases hv with
        | head => simp [GenOutcome.isErr, hg]
        | tail _ hv2 => exact hbefore v hv2
      · rw [← h2, hatt]
        simp
      · rw [← h1, hdb]
        simp [List.take_succ_cons, List.flatMap_cons, List.append_assoc]

/-- C5 counterexample: on `dbTwoRoots` both roots are eligible, but the
generator's failure on the first root aborts `run` as a whole — the second
root is never attempted and no item is created for it, against the claim
that every remaining root is still attempted. -/
theorem autoindex_abort_counterexample :
    urisForAutoindex dbTwoRoots 1 = ["/r1", "/r2"] ∧
    runAutoindex genFirstFails 1 dbTwoRoots = (dbTwoRoots, ["/r1"], some "/r1") ∧
    "/r2" ∉ (runAutoindex genFirstFails 1 dbTwoRoots).2.1 ∧
    (∀ i ∈ (runAutoindex genFirstFails 1 dbTwoRoots).1,
      i.web_uri ≠ "/r2/" ++ INDEX_FILENAME) := by
  decide

/-- C5 (amended): a failure while generating or uploading one index document
aborts the whole autoindex run at the first failing repository root, not just
that root: roots before it were attempted and their generated items (plus the
failing root's documents yielded before the failure) are persisted, and the
roots after it are not attempted at all. -/
theorem runAutoindex_failure_spec (gen : String → GenOutcome) (pub : Nat)
    (db db' : List DbItem) (att : List String) (e : String)
    (hrun : runAutoindex gen pub db = (db', att, some e)) :
    ∃ k, ∃ hk : k < (urisForAutoindex db pub).length,
      (urisForAutoindex db pub).get ⟨k, hk⟩ = e ∧
      (gen e).isErr = true ∧
      (∀ u ∈ (urisForAutoindex db pub).take k, (gen u).isErr = false) ∧
      att = (urisForAutoindex db pub).take (k + 1) ∧
      db' = db ++ ((urisForAutoindex db pub).take k).flatMap
          (fun u => ((gen u).docs).map (autoindexDbItem pub u))
        ++ ((gen e).docs).map (autoindexDbItem pub e) :=
  runLoop_err_spec gen pub (urisForAutoindex db pub) db db' att e hrun

/-- Witness for C5 (amended) on `dbTwoRoots` with the generator failing on
the first root. -/
theorem runAutoindex_failure_spec_witness :
    ∃ k, ∃ hk : k < (urisForAutoindex dbTwoRoots 1).length,
      (urisForAutoindex dbTwoRoots 1).get ⟨k, hk⟩ = "/r1" ∧
      (genFirstFails "/r1").isErr = true ∧
      (∀ u ∈ (urisForAutoindex dbTwoRoots 1).take k, (genFirstFails u).isErr = false) ∧
      ["/r1"] = (urisForAutoindex dbTwoRoots 1).take (k + 1) ∧
      dbTwoRoots = dbTwoRoots ++ ((urisForAutoindex dbTwoRoots 1).take k).flatMap
          (fun u => ((genFirstFails u).docs).map (autoindexDbItem 1 u))
        ++ ((genFirstFails "/r1").docs).map (autoindexDbItem 1 "/r1") :=
  runAutoindex_failure_spec genFirstFails 1 dbTwoRoots dbTwoRoots ["/r1"] "/r1" (by decide)

/-! ## Idempotence of the autoindex enricher -/

/-- The web URI of a generated index item always has the shape
`pre ++ "/" ++ INDEX_FILENAME`. -/
theorem autoindexDbItem_uri_shape (pub : Nat) (base : String) (idx : GenDoc) :
    ∃ pre, (autoindexDbItem pub base idx).web_uri = pre ++ "/" ++ INDEX_FILENAME := by
  unfold autoindexDbItem
  by_cases hrel : idx.relative_dir == ""
  · exact ⟨base, by simp [hrel, joinSlash]⟩
  · refine ⟨base ++ "/" ++ idx.relative_dir, ?_⟩
    simp [hrel, joinSlash, String.append_assoc]

/-- A URI of that shape never ends with the repomd marker suffix, so
generated items are never mistaken for repository metadata markers. -/
theorem index_uri_not_repomd (pre : String) :
    strEndsWith (pre ++ "/" ++ INDEX_FILENAME) "/repodata/repomd.xml" = false := by
  have hdata : (pre ++ "/" ++ INDEX_FILENAME).data
      = pre.data ++ ('/' :: INDEX_FILENAME.data) := by
    rw [String.append_assoc, String.data_append]
    rfl
  rw [strEndsWith, hdata, List.reverse_append]
  rw [List.take_append_of_le_length (by decide)]
  decide

/-- C6: a successful autoindex run whose generator yields a root-level
document (empty relative dir) for every eligible root leaves no root
eligible: running the enricher a second time on the resulting session finds
nothing to do, attempts no root, and adds zero new items — a root whose
`{root}/{INDEX_FILENAME}` item already exists is excluded from the eligible
set, and the first run created exactly such an item for every processed
root.  Fixing `gen` across both runs models the deterministic generator
rereading unchanged backend content. -/
theorem autoindex_idempotent (gen : String → GenOutcome) (pub : Nat)
    (db db' : List DbItem) (att : List String)
    (hrun : runAutoindex gen pub db = (db', att, none))
    (hroot : ∀ u ∈ urisForAutoindex db pub, ∃ d ∈ (gen u).docs, d.relative_dir = "") :
    urisForAutoindex db' pub = [] ∧ runAutoindex gen pub db' = (db', [], none) := by
  obtain ⟨hdb, hatt, hok⟩ := runLoop_ok_spec gen pub (urisForAutoindex db pub) db db' att hrun
  have haddedmem : ∀ a ∈ (urisForAutoindex db pub).flatMap
      (fun u => ((gen u).docs).map (autoindexDbItem pub u)),
      ∃ u ∈ urisForAutoindex db pub, ∃ d ∈ (gen u).docs, a = autoindexDbItem pub u d := by
    intro a ha
    obtain ⟨u, hu, ha2⟩ := List.mem_flatMap.mp ha
    obtain ⟨d, hd, rfl⟩ := List.mem_map.mp ha2
    exact ⟨u, hu, d, hd, rfl⟩
  have hitem : itemQuery db' pub = itemQuery db pub
      ++ (urisForAutoindex db pub).flatMap
        (fun u => ((gen u).docs).map (autoindexDbItem pub u)) := by
    rw [hdb, itemQuery, List.filter_append]
    congr 1
    rw [List.filter_eq_self]
    intro a ha
    obtain ⟨u, -, d, -, rfl⟩ := haddedmem a ha
    simp [autoindexDbItem]
  have hrepomd : repomdXmlItems db' pub = repomdXmlItems db pub := by
    rw [repomdXmlItems, hitem, List.filter_append]
    have hnil : ((urisForAutoindex db pub).flatMap
        (fun u => ((gen u).docs).map (autoindexDbItem pub u))).filter
          (fun i => strEndsWith i.web_uri "/repodata/repomd.xml") = [] := by
      rw [List.filter_eq_nil_iff]
      intro a ha
      obtain ⟨u, -, d, -, rfl⟩ := haddedmem a ha
      obtain ⟨pre, hpre⟩ := autoindexDbItem_uri_shape pub u d
      simp [hpre, index_uri_not_repomd]
    rw [hnil, List.append_nil, repomdXmlItems]
  have huris : urisForAutoindex db' pub = [] := by
    rw [urisForAutoindex, hrepomd, List.filterMap_eq_nil_iff]
    intro item hmem2
    have hany : ((itemQuery db' pub).any (fun i => i.web_uri ==
        strDropLast item.web_uri ("/repodata/repomd.xml").length ++ "/" ++ INDEX_FILENAME))
          = true := by
      by_cases hcase : ((itemQuery db pub).any (fun i => i.web_uri ==
          strDropLast item.web_uri ("/repodata/repomd.xml").length ++ "/" ++ INDEX_FILENAME))
            = true
      · rw [hitem, List.any_append, hcase, Bool.true_or]
      · have hbase : strDropLast item.web_uri ("/repodata/repomd.xml").length
            ∈ urisForAutoindex db pub := by
          refine List.mem_filterMap.mpr ⟨item, hmem2, ?_⟩
          simp only [if_neg hcase]
        obtain ⟨d, hd, hdrel⟩ := hroot _ hbase
        refine List.any_eq_true.mpr ⟨autoindexDbItem pub
          (strDropLast item.web_uri ("/repodata/repomd.xml").length) d, ?_, ?_⟩
        · rw [hitem]
          refine List.mem_append_right _ (List.mem_flatMap.mpr ⟨_, hbase,
            List.mem_map.mpr ⟨d, hd, rfl⟩⟩)
        · simp [autoindexDbItem, hdrel, joinSlash]
    simp only [hany, if_true]
  refine ⟨huris, ?_⟩
  rw [runAutoindex, huris]
  rfl

set_option maxRecDepth 100000 in
/-- Witness for C6: one root, one generated root-level index document; after
the first run the root is no longer eligible and the second run is a no-op. -/
theorem autoindex_idempotent_witness :
    urisForAutoindex (runAutoindex genRoot 1 dbOneRoot).1 1 = [] ∧
    runAutoindex genRoot 1 (runAutoindex genRoot 1 dbOneRoot).1
      = ((runAutoindex genRoot 1 dbOneRoot).1, [], none) :=
  autoindex_idempotent genRoot 1 dbOneRoot (runAutoindex genRoot 1 dbOneRoot).1
    (runAutoindex genRoot 1 dbOneRoot).2.1 (by decide) (by decide)

/-! ## Properties of the content-addressed key -/

/-- `bytesBE n x` always yields exactly `n` bytes. -/
theorem bytesBE_length : ∀ (n x : Nat), (bytesBE n x).length = n := by
  intro n
  induction n with
  | zero => intro x; rfl
  | succ m ih => intro x; simp [bytesBE, ih]

/-- One compression step always yields the 8-word hash state. -/
theorem sha256Chunk_length (h chunk : List Nat) : (sha256Chunk h chunk).length = 8 := by
  simp [sha256Chunk]

/-- A SHA-256 digest is 32 bytes. -/
theorem sha256_length (msg : List Nat) : (sha256 msg).length = 32 := by
  have h8 : ∀ (cs : List (List Nat)) (h : List Nat), h.length = 8 →
      (cs.foldl sha256Chunk h).length = 8 := by
    intro cs
    induction cs with
    | nil => intro h hh; exact hh
    | cons c rest ih => intro h hh; exact ih _ (sha256Chunk_length h c)
  have hflat : ∀ l : List Nat, (l.flatMap (bytesBE 4)).length = 4 * l.length := by
    intro l
    induction l with
    | nil => rfl
    | cons a rest ih =>
      simp only [List.flatMap_cons, List.length_append, ih, bytesBE_length, List.length_cons]
      ring
  show (((chunks64 (sha256Pad msg)).foldl sha256Chunk sha256H0).flatMap (bytesBE 4)).length = 32
  rw [hflat, h8 _ _ (by rfl)]

/-- Hex digits of values below 16 are lowercase hex characters. -/
theorem isHexLowerChar_hexDigit (m : Nat) (h : m < 16) : isHexLowerChar (hexDigit m) = true := by
  interval_cases m <;> decide

/-- `str.lower()` leaves hex digits unchanged. -/
theorem toLower_hexDigit (m : Nat) (h : m < 16) : Char.toLower (hexDigit m) = hexDigit m := by
  interval_cases m <;> decide

/-- A hex rendering has two characters per byte. -/
theorem hexStr_length (bytes : List Nat) : (hexStr bytes).data.length = 2 * bytes.length := by
  show (bytes.flatMap (fun b => [hexDigit (b / 16 % 16), hexDigit (b % 16)])).length
    = 2 * bytes.length
  induction bytes with
  | nil => rfl
  | cons a rest ih =>
    simp only [List.flatMap_cons, List.length_append, ih, List.length_cons,
      List.length_nil, List.length_singleton]
    omega

/-- Every character of a hex rendering is a lowercase hex character. -/
theorem hexStr_chars (bytes : List Nat) :
    ∀ c ∈ (hexStr bytes).data, isHexLowerChar c = true := by
  intro c hc
  obtain ⟨b, -, hcb⟩ := List.mem_flatMap.mp hc
  have h16a : b / 16 % 16 < 16 := Nat.mod_lt _ (by norm_num)
  have h16b : b % 16 < 16 := Nat.mod_lt _ (by norm_num)
  rcases (by simpa using hcb : c = hexDigit (b / 16 % 16) ∨ c = hexDigit (b % 16)) with rfl | rfl
  · exact isHexLowerChar_hexDigit _ h16a
  · exact isHexLowerChar_hexDigit _ h16b

/-- The trailing `.lower()` in `object_key` is the identity: `hexdigest` is
already lowercase. -/
theorem strLower_hexStr (bytes : List Nat) : strLower (hexStr bytes) = hexStr bytes := by
  have hmap : ∀ l : List Nat,
      (l.flatMap (fun b => [hexDigit (b / 16 % 16), hexDigit (b % 16)])).map Char.toLower
        = l.flatMap (fun b => [hexDigit (b / 16 % 16), hexDigit (b % 16)]) := by
    intro l
    induction l with
    | nil => rfl
    | cons a rest ih =>
      simp only [List.flatMap_cons, List.map_append, ih, List.map_cons, List.map_nil]
      rw [toLower_hexDigit _ (Nat.mod_lt _ (by norm_num)),
        toLower_hexDigit _ (Nat.mod_lt _ (by norm_num))]
  exact congrArg String.mk (hmap bytes)

/-- `object_key` is exactly the hex rendering of the SHA-256 digest. -/
theorem object_key_eq_hexStr (content : List Nat) :
    object_key content = hexStr (sha256 content) := by
  rw [object_key, strLower_hexStr]

/-- `object_key` yields 64 characters. -/
theorem object_key_length (content : List Nat) :
    (object_key content).data.length = 64 := by
  rw [object_key_eq_hexStr, hexStr_length, sha256_length]

/-- `object_key` yields only lowercase hex characters. -/
theorem object_key_chars (content : List Nat) :
    ∀ c ∈ (object_key content).data, isHexLowerChar c = true := by
  rw [object_key_eq_hexStr]
  exact hexStr_chars _

/-- C7: every persisted autoindex item carries the content-addressed
`object_key` of its document's UTF-8 content — a 64-character lowercase-hex
SHA-256 digest — a `web_uri` joining the root, the (possibly empty) relative
directory and the reserved index filename, the fixed HTML content type, and
the enricher's publish id. -/
theorem autoindex_item_spec (pub : Nat) (base_uri : String) (idx : GenDoc) :
    (autoindexDbItem pub base_uri idx).object_key
      = some (object_key (utf8Bytes idx.content)) ∧
    (object_key (utf8Bytes idx.content)).data.length = 64 ∧
    (∀ c ∈ (object_key (utf8Bytes idx.content)).data, isHexLowerChar c = true) ∧
    (autoindexDbItem pub base_uri idx).web_uri =
      (if idx.relative_dir = "" then base_uri ++ "/" ++ INDEX_FILENAME
       else base_uri ++ "/" ++ idx.relative_dir ++ "/" ++ INDEX_FILENAME) ∧
    (autoindexDbItem pub base_uri idx).content_type = some "text/html; charset=UTF-8" ∧
    (autoindexDbItem pub base_uri idx).publish_id = pub := by
  refine ⟨rfl, object_key_length _, object_key_chars _, ?_, rfl, rfl⟩
  unfold autoindexDbItem
  by_cases hrel : idx.relative_dir = ""
  · simp [hrel, joinSlash]
  · simp [hrel, joinSlash, String.append_assoc]

/-! ## The storage-client pool -/

/-- Unfolding `poolFind` over a cons cell. -/
theorem poolFind_cons (e : String × List Nat) (rest : List (String × List Nat)) (p : String) :
    poolFind (e :: rest) p = if e.1 == p then some e.2 else poolFind rest p := by
  by_cases he : e.1 == p <;> simp [poolFind, List.find?_cons, he]

/-- Updating a registered profile's queue makes lookup yield the new queue. -/
theorem poolFind_poolSet_self (ps : List (String × List Nat)) (p : String) (q0 q : List Nat)
    (h : poolFind ps p = some q0) : poolFind (poolSet ps p q) p = some q := by
  induction ps with
  | nil => simp [poolFind] at h
  | cons e rest ih =>
    rw [poolFind_cons] at h
    rw [poolSet, List.map_cons]
    by_cases he : e.1 == p
    · rw [if_pos he, poolFind_cons]
      simp
    · rw [if_neg he, poolFind_cons, if_neg he]
      rw [if_neg he] at h
      exact ih h

/-- Updating one profile's queue leaves other profiles' lookups unchanged. -/
theorem poolFind_poolSet_other (ps : List (String × List Nat)) (p p2 : String)
    (q : List Nat) (h : (p == p2) = false) :
    poolFind (poolSet ps p q) p2 = poolFind ps p2 := by
  induction ps with
  | nil => rfl
  | cons e rest ih =>
    rw [poolSet, List.map_cons]
    by_cases he : e.1 == p
    · rw [if_pos he, poolFind_cons, poolFind_cons]
      have h2 : (e.1 == p2) = false := by rw [eq_of_beq he]; exact h
      simp only [h, h2, Bool.false_eq_true, if_false]
      exact ih
    · rw [if_neg he, poolFind_cons, poolFind_cons]
      by_cases he2 : e.1 == p2
      · simp only [he2, if_true]
      · simp only [he2, Bool.false_eq_true, if_false]
        exact ih

/-- Registering a brand-new profile at the end of the mapping makes lookup
yield its fresh queue. -/
theorem poolFind_append_self (ps : List (String × List Nat)) (p : String) (q : List Nat)
    (h : poolFind ps p = none) : poolFind (ps ++ [(p, q)]) p = some q := by
  induction ps with
  | nil => simp [poolFind_cons, poolFind]
  | cons e rest ih =>
    rw [poolFind_cons] at h
    rw [List.cons_append, poolFind_cons]
    by_cases he : e.1 == p
    · rw [if_pos he] at h
      exact absurd h (by simp)
    · rw [if_neg he] at h
      rw [if_neg he]
      exact ih h

/-- Registering a new profile leaves other profiles' lookups unchanged. -/
theorem poolFind_append_other (ps : List (String × List Nat)) (p p2 : String)
    (q : List Nat) (h : (p == p2) = false) :
    poolFind (ps ++ [(p, q)]) p2 = poolFind ps p2 := by
  induction ps with
  | nil => simp [poolFind_cons, poolFind, h]
  | cons e rest ih =>
    rw [List.cons_append, poolFind_cons, poolFind_cons]
    by_cases he : e.1 == p2
    · simp only [he, if_true]
    · simp only [he, Bool.false_eq_true, if_false]
      exact ih

/-- C8: a client acquired through `get_s3_client` is returned to the same
profile's pool on every exit path of the caller's unit of work.  Whatever
outcome `work` produces — a value or a raised error — the final mapping holds
the popped client back on top of that profile's queue (the queue is exactly
the one present after pool creation), other profiles' queues are untouched,
and the outcome is propagated unchanged. -/
theorem get_s3_client_exception_safe (pools : List (String × List Nat)) (mk : Nat → Nat)
    (profile : String) (work : Nat → Except Unit Nat)
    (st : List (String × List Nat)) (res : Except Unit Nat)
    (hrun : get_s3_client pools mk profile work = some (st, res)) :
    ∃ c q, res = work c ∧
      poolFind st profile = some (c :: q) ∧
      (∀ p2, (profile == p2) = false → poolFind st p2 = poolFind pools p2) ∧
      (poolFind pools profile = some (c :: q) ∨
        (poolFind pools profile = none ∧ c :: q = queue_for_profile mk 3)) := by
  unfold get_s3_client at hrun
  cases hfind : poolFind pools profile with
  | none =>
    have happ : poolFind (pools ++ [(profile, queue_for_profile mk 3)]) profile
        = some (queue_for_profile mk 3) := poolFind_append_self pools profile _ hfind
    have hq : queue_for_profile mk 3 = mk 2 :: [mk 1, mk 0] := rfl
    have happ2 := hq ▸ happ
    simp only [hfind, hq, happ2] at hrun
    simp only [Option.some.injEq, Prod.mk.injEq] at hrun
    obtain ⟨rfl, rfl⟩ := hrun.symm
    refine ⟨mk 2, [mk 1, mk 0], rfl, ?_, ?_, Or.inr ⟨rfl, hq.symm⟩⟩
    · exact poolFind_poolSet_self _ _ _ _
        (poolFind_poolSet_self _ _ _ _ (hq ▸ happ))
    · intro p2 hne
      rw [poolFind_poolSet_other _ _ _ _ hne, poolFind_poolSet_other _ _ _ _ hne,
        poolFind_append_other _ _ _ _ hne]
  | some q0 =>
    cases q0 with
    | nil =>
      simp only [hfind] at hrun
      exact absurd hrun (by simp)
    | cons c rest =>
      simp only [hfind] at hrun
      simp only [Option.some.injEq, Prod.mk.injEq] at hrun
      obtain ⟨rfl, rfl⟩ := hrun.symm
      refine ⟨c, rest, rfl, ?_, ?_, Or.inl rfl⟩
      · exact poolFind_poolSet_self _ _ _ _
          (poolFind_poolSet_self _ _ _ _ hfind)
      · intro p2 hne
        rw [poolFind_poolSet_other _ _ _ _ hne, poolFind_poolSet_other _ _ _ _ hne]

/-- Witness for C8: a first-time acquisition on an empty mapping with a unit
of work that raises; the freshly created pool ends holding its client again
and the error is propagated. -/
theorem get_s3_client_exception_safe_witness :
    ∃ c q, (Except.error () : Except Unit Nat) = (fun _ => (Except.error () : Except Unit Nat)) c ∧
      poolFind [("p", [2, 1, 0])] "p" = some (c :: q) ∧
      (∀ p2, ("p" == p2) = false → poolFind [("p", [2, 1, 0])] p2 = poolFind [] p2) ∧
      (poolFind ([] : List (String × List Nat)) "p" = some (c :: q) ∨
        (poolFind ([] : List (String × List Nat)) "p" = none ∧
          c :: q = queue_for_profile (fun n => n) 3)) :=
  get_s3_client_exception_safe [] (fun n => n) "p" (fun _ => .error ())
    [("p", [2, 1, 0])] (.error ()) (by rfl)

/-! ## The publish content fetcher -/

/-- C9: when no item of the publish has the requested `web_uri`, the fetcher
returns the "absent" result (Python `None`): no backend read is issued and
nothing is raised. -/
theorem fetcher_absent_on_no_match (db : List DbItem) (pub : Nat)
    (s3get : Option String → Option S3Resp) (gunzip : String → String) (uri : String)
    (h : ∀ i ∈ db, i.publish_id = pub → i.web_uri ≠ uri) :
    fetcherCall db pub s3get gunzip uri = (.ok none, []) := by
  have hfil : db.filter (fun i => i.publish_id == pub && i.web_uri == uri) = [] := by
    rw [List.filter_eq_nil_iff]
    intro a ha hpred
    obtain ⟨h1, h2⟩ := Bool.and_eq_true .. ▸ hpred
    exact h a ha (by simpa using h1) (by simpa using h2)
  unfold fetcherCall
  rw [hfil]

/-- Witness for C9: `dbTombstone` holds no item at `/nope`. -/
theorem fetcher_absent_on_no_match_witness :
    fetcherCall dbTombstone 3 s3Const id "/nope" = (.ok none, []) :=
  fetcher_absent_on_no_match dbTombstone 3 s3Const id "/nope" (by decide)

/-- C10: a tombstone item (`object_key` = the sentinel `"absent"`) at the
requested URI is not treated as the absent result: the fetcher reads the
literal key `"absent"` off the matched item and issues a backend read with
it, and the call does not return Python `None` (it returns decoded backend
content, or propagates the backend's error). -/
theorem fetcher_tombstone_reads_backend (db : List DbItem) (pub : Nat)
    (s3get : Option String → Option S3Resp) (gunzip : String → String) (uri : String)
    (item : DbItem) (rest : List DbItem)
    (hmatch : db.filter (fun i => i.publish_id == pub && i.web_uri == uri) = item :: rest)
    (hkey : item.object_key = some "absent") :
    (fetcherCall db pub s3get gunzip uri).2 = [some "absent"] ∧
    (fetcherCall db pub s3get gunzip uri).1 ≠ .ok none := by
  simp only [fetcherCall, hmatch]
  rw [hkey]
  cases hs : s3get (some "absent") with
  | none => exact ⟨rfl, by simp⟩
  | some resp => exact ⟨rfl, by simp⟩

/-- Witness for C10: the tombstone at `/t` in `dbTombstone` triggers a
backend read with key `"absent"`. -/
theorem fetcher_tombstone_reads_backend_witness :
    (fetcherCall dbTombstone 3 s3Const id "/t").2 = [some "absent"] ∧
    (fetcherCall dbTombstone 3 s3Const id "/t").1 ≠ .ok none :=
  fetcher_tombstone_reads_backend dbTombstone 3 s3Const id "/t"
    ⟨"/t", some "absent", none, none, 3⟩ [] (by decide) (by decide)

/-- Witness for C7 at a concrete document. -/
theorem autoindex_item_spec_witness :
    (autoindexDbItem 1 "/r" ⟨"", "x"⟩).object_key
      = some (object_key (utf8Bytes (GenDoc.mk "" "x").content)) ∧
    (object_key (utf8Bytes (GenDoc.mk "" "x").content)).data.length = 64 ∧
    (∀ c ∈ (object_key (utf8Bytes (GenDoc.mk "" "x").content)).data,
      isHexLowerChar c = true) ∧
    (autoindexDbItem 1 "/r" ⟨"", "x"⟩).web_uri =
      (if (GenDoc.mk "" "x").relative_dir = "" then "/r" ++ "/" ++ INDEX_FILENAME
       else "/r" ++ "/" ++ (GenDoc.mk "" "x").relative_dir ++ "/" ++ INDEX_FILENAME) ∧
    (autoindexDbItem 1 "/r" ⟨"", "x"⟩).content_type = some "text/html; charset=UTF-8" ∧
    (autoindexDbItem 1 "/r" ⟨"", "x"⟩).publish_id = 1 :=
  autoindex_item_spec 1 "/r" ⟨"", "x"⟩
